import Mathlib

/-!
go-design-patterns: composite cost aggregation, decorator chains, dispatch examples

A shallow embedding of `structural/composite/composite.go` and
`structural/decorator/decorator.go`, and of the three dispatch examples
`creational/abstract-factory/abstract-factory.go`, `creational/factory/factory.go`
and `behavioral/strategy/strategy.go`, followed by the properties proved of
them.

Go's `int` is a two's complement machine integer whose width depends on the
target (32 or 64 bits).  The width is the parameter `w` of the definitions
below; concrete evaluations use `w = 64`.
-/

/-! ## Go's `int` -/

/-- Reduction of a mathematical integer to the `w`-bit two's complement value
Go stores in an `int`. -/
def wrap (w : Nat) (x : Int) : Int := Int.bmod x (2 ^ w)

/-- Go's `+` on `int`: the sum wraps around on overflow. -/
def intAdd (w : Nat) (a b : Int) : Int := wrap w (a + b)

/-- The largest value of a `w`-bit `int` (`math.MaxInt`). -/
def maxInt (w : Nat) : Int := 2 ^ (w - 1) - 1

/-! ## Console output and run-time panics -/

/-- The observable state of a run: the lines written so far by the builtin
`println` (oldest first), and whether the run has ended in a run-time panic. -/
structure World where
  stderr : List String
  panicked : Bool
  deriving DecidableEq, Repr

/-- The state in which a program starts. -/
def World.start : World := { stderr := [], panicked := false }

/-- The builtin `println`: writes its arguments, separated by spaces, as one
line.  Nothing runs once the program has panicked. -/
def World.println (w : World) (args : List String) : World :=
  if w.panicked then w else { w with stderr := w.stderr ++ [" ".intercalate args] }

/-- A run-time panic (in this program: a method called through a nil value).
The program has no deferred `recover`, so the run ends there. -/
def World.panic (w : World) : World := { w with panicked := true }

/-- Sequencing: the effects `r` of a step that was started afresh take place
after `w`, unless `w` has already ended in a panic. -/
def World.andThen (w r : World) : World :=
  if w.panicked then w else { stderr := w.stderr ++ r.stderr, panicked := r.panicked }

namespace Composite

/-! ## composite.go -/

/-- The struct `RealItem` of composite.go. -/
structure RealItem where
  name : String
  cost : Int
  deriving DecidableEq, Repr

/-- Method `(ri *RealItem) Cost()`: `return ri.cost`. -/
def RealItem.Cost (ri : RealItem) : Int := ri.cost

/-- The values of interface `Item` that form a tree: a `*RealItem`, or a `*Box`
with its slice `items`.  The nil interface value and nil pointers are not
nodes of a tree and are left out. -/
inductive Item where
  | RealItem (ri : RealItem)
  | Box (items : List Item)

mutual
/-- Method `Cost()` called on an `Item`: dynamic dispatch to `RealItem.Cost` or
to `Box.Cost`, whose body is `totalCost := 0` followed by the range loop. -/
def Item.Cost (w : Nat) : Item → Int
  | .RealItem ri => ri.Cost
  | .Box items => Box.rangeLoop w items 0
/-- The loop `for _, item := range b.items { totalCost += item.Cost() }` of
`Box.Cost`, run on the items still to visit from the current `totalCost`;
its value is the `totalCost` returned after the loop. -/
def Box.rangeLoop (w : Nat) : List Item → Int → Int
  | [], totalCost => totalCost
  | item :: rest, totalCost => Box.rangeLoop w rest (intAdd w totalCost (item.Cost w))
end

/-- Method `(b *Box) Cost()` of a box with the given `items`: `totalCost := 0`,
the range loop, `return totalCost`.  It is the body `Item.Cost` runs on a
`Box` node. -/
def Box.Cost (w : Nat) (items : List Item) : Int := Box.rangeLoop w items 0

/-- The tree built in `main` of composite.go. -/
def box : Item :=
  .Box [
    .RealItem { name := "Item 1", cost := 10 },
    .RealItem { name := "Item 2", cost := 20 },
    .Box [
      .RealItem { name := "Item 3", cost := 30 },
      .RealItem { name := "Item 4", cost := 40 }
    ]
  ]

/-- Function `main` of composite.go: `println("Total cost: ", box.Cost())`. -/
def main (w : Nat) (out : World) : World :=
  out.println ["Total cost: ", toString (box.Cost w)]

/-! ### Vocabulary of the properties -/

mutual
/-- The `RealItem` leaves reachable from a node, left to right. -/
def Item.leaves : Item → List Composite.RealItem
  | .RealItem ri => [ri]
  | .Box items => Item.leavesOfItems items
/-- The leaves reachable from a slice of items, left to right. -/
def Item.leavesOfItems : List Item → List Composite.RealItem
  | [] => []
  | item :: rest => item.leaves ++ Item.leavesOfItems rest
end

mutual
/-- Every subtree of a node: the node itself and the subtrees of its items. -/
def Item.subtrees : Item → List Item
  | .RealItem ri => [.RealItem ri]
  | .Box items => .Box items :: Item.subtreesOfItems items
/-- The subtrees of every item of a slice. -/
def Item.subtreesOfItems : List Item → List Item
  | [] => []
  | item :: rest => item.subtrees ++ Item.subtreesOfItems rest
end

/-- The mathematical sum of the cost fields of the leaves of a node. -/
def Item.leafSum (t : Item) : Int := (t.leaves.map Composite.RealItem.cost).sum

/-- Every cost field in the tree is a value of the `w`-bit type `int`. -/
def Item.InRange (w : Nat) (t : Item) : Prop :=
  ∀ ri ∈ t.leaves, wrap w ri.cost = ri.cost

instance (w : Nat) (t : Item) : Decidable (t.InRange w) :=
  inferInstanceAs (Decidable (∀ ri ∈ t.leaves, wrap w ri.cost = ri.cost))

/-- The single flat `Box` that holds exactly the leaves of a node. -/
def Item.flatten (t : Item) : Item := .Box (t.leaves.map Item.RealItem)

/-- A regrouping of the leaves of the tree of `main`, with an empty box, a
single-item box inside a box, and the leaves in another order. -/
def regrouped : Item :=
  .Box [
    .Box [],
    .Box [
      .RealItem { name := "Item 4", cost := 40 },
      .RealItem { name := "Item 3", cost := 30 }
    ],
    .Box [.Box [.RealItem { name := "Item 2", cost := 20 }]],
    .RealItem { name := "Item 1", cost := 10 }
  ]

/-- A box of two items with non-negative costs whose sum exceeds the largest
64-bit `int`. -/
def overflowBox64 : Item :=
  .Box [
    .RealItem { name := "Item 1", cost := 9223372036854775807 },
    .RealItem { name := "Item 2", cost := 1 }
  ]

/-- The same for a 32-bit `int`. -/
def overflowBox32 : Item :=
  .Box [
    .RealItem { name := "Item 1", cost := 2147483647 },
    .RealItem { name := "Item 2", cost := 1 }
  ]

end Composite

namespace Decorator

/-! ## decorator.go -/

/-- The values of interface `Notifier`.  The program is a `package main`, so
the implementing types are exactly those of decorator.go:
* `nil`: the nil interface value;
* `EmailNotifier`, `SMSNotifier`, `SlackNotifier`: a `*EmailNotifier`,
  `*SMSNotifier`, `*SlackNotifier` (empty structs; their methods never read
  through the pointer);
* `decorator core notifier`: a `NotificationDecorator` with these two fields,
  held by value or through a non-nil pointer (the method has a value
  receiver, so both calls run the same body on the same field values);
* `nilDecorator`: a nil `*NotificationDecorator`; as an interface value it is
  not nil, and calling the value method through it panics. -/
inductive Notifier where
  | nil
  | EmailNotifier
  | SMSNotifier
  | SlackNotifier
  | decorator (core notifier : Notifier)
  | nilDecorator
  deriving DecidableEq, Repr

/-- The struct `NotificationDecorator` of decorator.go. -/
structure NotificationDecorator where
  core : Notifier
  notifier : Notifier
  deriving DecidableEq, Repr

/-- A `NotificationDecorator` stored in a variable of type `Notifier`. -/
def NotificationDecorator.toNotifier (nd : NotificationDecorator) : Notifier :=
  .decorator nd.core nd.notifier

/-- The test `x == nil` on an interface value. -/
def Notifier.isNil : Notifier → Bool
  | .nil => true
  | _ => false

/-- Method `Notify(message)` called on a `Notifier`: dynamic dispatch.  The
case `decorator` is the body of `NotificationDecorator.Notify`:
`nd.notifier.Notify(message)`, then `nd.core.Notify(message)` if
`nd.core != nil`. -/
def Notifier.Notify : Notifier → String → World → World
  | .nil, _, w => w.panic
  | .EmailNotifier, message, w => w.println ["Sending email notification: ", message]
  | .SMSNotifier, message, w => w.println ["Sending SMS notification: ", message]
  | .SlackNotifier, message, w => w.println ["Sending Slack notification: ", message]
  | .decorator core notifier, message, w =>
    let w1 := notifier.Notify message w
    if core.isNil then w1 else core.Notify message w1
  | .nilDecorator, _, w => w.panic

/-- Method `(nd NotificationDecorator) Notify(message string)`. -/
def NotificationDecorator.Notify (nd : NotificationDecorator) (message : String)
    (w : World) : World :=
  let w1 := nd.notifier.Notify message w
  if nd.core.isNil then w1 else nd.core.Notify message w1

/-- Method `(nd NotificationDecorator) Decorate(notifier Notifier)`: returns
`NotificationDecorator{core: nd, notifier: notifier}`. -/
def NotificationDecorator.Decorate (nd : NotificationDecorator) (notifier : Notifier) :
    NotificationDecorator :=
  { core := nd.toNotifier, notifier := notifier }

/-- Function `sendNotification(notifier, message)`. -/
def sendNotification (notifier : Notifier) (message : String) (w : World) : World :=
  notifier.Notify message w

/-- The variable `decoratedNotifier` of `main`:
`NotificationDecorator{notifier: &EmailNotifier{}}.Decorate(&SMSNotifier{}).Decorate(&SlackNotifier{})`. -/
def decoratedNotifier : NotificationDecorator :=
  (({ core := .nil, notifier := .EmailNotifier } : NotificationDecorator).Decorate
    .SMSNotifier).Decorate .SlackNotifier

/-- Function `main` of decorator.go; `&decoratedNotifier` is a non-nil pointer
to the chain. -/
def main (w : World) : World :=
  sendNotification decoratedNotifier.toNotifier "Hello, User!" w

/-- The output that the closing comment of decorator.go (`// Output:`)
documents for `main`. -/
def documentedOutput : List String :=
  ["Sending email notification:  Hello, User!",
   "Sending SMS notification:  Hello, User!",
   "Sending Slack notification:  Hello, User!"]

/-! ### Vocabulary of the properties -/

/-- What one call `n.Notify(message)` does when it is run on its own, from the
start state. -/
def Notifier.run (n : Notifier) (message : String) : World :=
  n.Notify message World.start

/-- What one call `nd.Notify(message)` does when it is run on its own. -/
def NotificationDecorator.run (nd : NotificationDecorator) (message : String) : World :=
  nd.Notify message World.start

/-- The chain of length 1 written `NotificationDecorator{notifier: a}`. -/
def single (a : Notifier) : NotificationDecorator := { core := .nil, notifier := a }

end Decorator

/-- Sequential composition of a list of steps, each given by what it does when
started afresh: they take place one after the other, up to the first panic. -/
def World.seq : List World → World
  | [] => World.start
  | r :: rs => r.andThen (World.seq rs)

namespace Composite

/-! ### Evaluation with a bounded call depth -/

mutual
/-- The nesting depth of a node: 1 for a `RealItem`, one more than the deepest
item for a `Box`. -/
def Item.depth : Item → Nat
  | .RealItem _ => 1
  | .Box items => Item.depthOfItems items + 1
/-- The depth of the deepest item of a slice (0 for the empty slice). -/
def Item.depthOfItems : List Item → Nat
  | [] => 0
  | item :: rest => max item.depth (Item.depthOfItems rest)
end

/-- The call `item.Cost()` run with at most `fuel` nested calls of `Cost` on
the stack: `none` when the budget is used up before the call returns.  The
definition recurses on the budget, not on the tree, so it does not take the
termination of `Cost` for granted. -/
def Item.costFuel (w : Nat) : Nat → Item → Option Int
  | 0, _ => none
  | _ + 1, .RealItem ri => some ri.Cost
  | fuel + 1, .Box items =>
    items.foldl
      (fun totalCost item =>
        match totalCost, Item.costFuel w fuel item with
        | some total, some cost => some (intAdd w total cost)
        | _, _ => none)
      (some 0)

end Composite

namespace Decorator

/-- The chain `NotificationDecorator{notifier: b0}.Decorate(b1)...Decorate(bn)`
for `bs = [b1, ..., bn]`. -/
def chainOf (b0 : Notifier) (bs : List Notifier) : NotificationDecorator :=
  bs.foldl NotificationDecorator.Decorate (single b0)

/-- The zero value `NotificationDecorator{}`: both fields are nil. -/
def zeroValue : NotificationDecorator := { core := .nil, notifier := .nil }

/-- The notifier is present, and so is the own notifier of every link it
holds: it is neither the nil interface value nor a nil pointer, and every
`NotificationDecorator` in it has a present `notifier` and a `core` that is nil
or present. -/
def Notifier.present : Notifier → Bool
  | .nil => false
  | .EmailNotifier => true
  | .SMSNotifier => true
  | .SlackNotifier => true
  | .decorator core notifier => notifier.present && (core.isNil || core.present)
  | .nilDecorator => false

/-- The notifier is one of the three printing notifiers of decorator.go. -/
def Notifier.isLeaf : Notifier → Bool
  | .EmailNotifier => true
  | .SMSNotifier => true
  | .SlackNotifier => true
  | _ => false

end Decorator

namespace Decorator

/-! ### Chains held in variables

`Decorate` and `Notify` once more, this time with the memory of the program
made explicit, so that what a call leaves in the variables can be stated.
`main` takes the address of a chain (`&decoratedNotifier`), so a `Notifier` can
be a pointer to a variable. -/

/-- A value of interface `Notifier` in a program with variables.  The cases are
those of `Notifier`, except that a non-nil `*NotificationDecorator` is the
address of the variable it points to, so that a change of the variable is seen
through the pointer. -/
inductive NotifierRef where
  | nil
  | EmailNotifier
  | SMSNotifier
  | SlackNotifier
  | decorator (core notifier : NotifierRef)
  | pointer (address : Nat)
  | nilDecorator
  deriving DecidableEq, Repr

/-- A variable of type `NotificationDecorator`: its two fields. -/
structure DecoratorVar where
  core : NotifierRef
  notifier : NotifierRef
  deriving DecidableEq, Repr

/-- The memory of the program: the `NotificationDecorator` variable at each
address. -/
abbrev Memory := Nat → DecoratorVar

/-- The assignment `*address = value`. -/
def Memory.assign (mem : Memory) (address : Nat) (value : DecoratorVar) : Memory :=
  fun a => if a = address then value else mem a

/-- The test `x == nil` on an interface value. -/
def NotifierRef.isNil : NotifierRef → Bool
  | .nil => true
  | _ => false

/-- Method `Notify(message)` called on a `Notifier`, in a memory and with at
most `fuel` nested calls (`none` when the budget is used up: pointers can form
a cycle).  The case `decorator` is the body of `NotificationDecorator.Notify`;
a call through a pointer runs that body on a copy of the variable pointed to.
Nothing in the body assigns, so the memory is only read. -/
def NotifierRef.notifyFuel (mem : Memory) (message : String) :
    Nat → NotifierRef → World → Option World
  | 0, _, _ => none
  | _ + 1, .nil, w => some w.panic
  | _ + 1, .EmailNotifier, w => some (w.println ["Sending email notification: ", message])
  | _ + 1, .SMSNotifier, w => some (w.println ["Sending SMS notification: ", message])
  | _ + 1, .SlackNotifier, w => some (w.println ["Sending Slack notification: ", message])
  | fuel + 1, .decorator core notifier, w =>
    match NotifierRef.notifyFuel mem message fuel notifier w with
    | none => none
    | some w1 =>
      if core.isNil then some w1 else NotifierRef.notifyFuel mem message fuel core w1
  | fuel + 1, .pointer address, w =>
    NotifierRef.notifyFuel mem message fuel
      (.decorator (mem address).core (mem address).notifier) w
  | _ + 1, .nilDecorator, w => some w.panic

/-- Method `(nd NotificationDecorator) Decorate(notifier Notifier)` run in a
memory.  The receiver `nd` is a copy of the caller's chain; the body is the one
statement `return NotificationDecorator{core: nd, notifier: notifier}`, which
assigns to nothing, so the memory comes back as it was received. -/
def DecoratorVar.Decorate (nd : DecoratorVar) (notifier : NotifierRef) (mem : Memory) :
    Memory × DecoratorVar :=
  (mem, { core := .decorator nd.core nd.notifier, notifier := notifier })

/-- The call `c.Decorate(n)` on the variable `c` at `address`: the method has a
value receiver, so it is given the value of the variable, not its address. -/
def callDecorate (address : Nat) (n : NotifierRef) (mem : Memory) : Memory × DecoratorVar :=
  DecoratorVar.Decorate (mem address) n mem

/-- The statements `chain1 := NotificationDecorator{notifier: A}` and
`chain2 := chain1.Decorate(B)`, run on the variables at the addresses `chain1`
and `chain2`. -/
def twoChains (chain1 chain2 : Nat) (A B : NotifierRef) (mem : Memory) : Memory :=
  let mem1 := mem.assign chain1 { core := .nil, notifier := A }
  let call := callDecorate chain1 B mem1
  call.1.assign chain2 call.2

/-- A `Notifier` without pointers as a value of `NotifierRef`. -/
def Notifier.toRef : Notifier → NotifierRef
  | .nil => .nil
  | .EmailNotifier => .EmailNotifier
  | .SMSNotifier => .SMSNotifier
  | .SlackNotifier => .SlackNotifier
  | .decorator core notifier => .decorator core.toRef notifier.toRef
  | .nilDecorator => .nilDecorator

/-- A `NotificationDecorator` without pointers as the content of a variable. -/
def NotificationDecorator.toVar (nd : NotificationDecorator) : DecoratorVar :=
  { core := nd.core.toRef, notifier := nd.notifier.toRef }

/-- The number of nested calls of `Notify` that a notifier without pointers
needs. -/
def Notifier.height : Notifier → Nat
  | .decorator core notifier => max core.height notifier.height + 1
  | _ => 1

/-- A memory in which every variable holds the zero value. -/
def Memory.zero : Memory := fun _ => { core := .nil, notifier := .nil }

end Decorator

namespace AbstractFactory

/-! ## abstract-factory.go -/

/-- The values of interface `Button`: nil, a `*DarkButton`, a `*LightButton`. -/
inductive Button where
  | nil
  | DarkButton
  | LightButton
  deriving DecidableEq, Repr

/-- The values of interface `Checkbox`: nil, a `*DarkCheckbox`, a
`*LightCheckbox`. -/
inductive Checkbox where
  | nil
  | DarkCheckbox
  | LightCheckbox
  deriving DecidableEq, Repr

/-- Method `Click()` called on a `Button`. -/
def Button.Click : Button → World → World
  | .nil, w => w.panic
  | .DarkButton, w => w.println ["Dark button clicked"]
  | .LightButton, w => w.println ["Light button clicked"]

/-- Method `Check()` called on a `Checkbox`. -/
def Checkbox.Check : Checkbox → World → World
  | .nil, w => w.panic
  | .DarkCheckbox, w => w.println ["Dark checkbox checked"]
  | .LightCheckbox, w => w.println ["Light checkbox checked"]

/-- The values of interface `UIElementFactory`: nil, a `*DarkThemeFactory`, a
`*LightThemeFactory`. -/
inductive UIElementFactory where
  | nil
  | DarkThemeFactory
  | LightThemeFactory
  deriving DecidableEq, Repr

/-- Method `CreateButton()` called on a `UIElementFactory`; `none` is the panic
of a call through the nil interface value. -/
def UIElementFactory.CreateButton : UIElementFactory → Option Button
  | .nil => none
  | .DarkThemeFactory => some .DarkButton
  | .LightThemeFactory => some .LightButton

/-- Method `CreateCheckbox()` called on a `UIElementFactory`. -/
def UIElementFactory.CreateCheckbox : UIElementFactory → Option Checkbox
  | .nil => none
  | .DarkThemeFactory => some .DarkCheckbox
  | .LightThemeFactory => some .LightCheckbox

/-- The struct `Theme`, with its embedded fields `Button` and `Checkbox`. -/
structure Theme where
  Button : AbstractFactory.Button
  Checkbox : AbstractFactory.Checkbox
  deriving DecidableEq, Repr

/-- Function `createThemeElements(factory)`: the fields are evaluated in the
order written. -/
def createThemeElements (factory : UIElementFactory) : Option Theme :=
  match factory.CreateButton with
  | none => none
  | some button =>
    match factory.CreateCheckbox with
    | none => none
    | some checkbox => some { Button := button, Checkbox := checkbox }

/-- Function `main` of abstract-factory.go. -/
def main (w : World) : World :=
  match createThemeElements .DarkThemeFactory with
  | none => w.panic
  | some darkTheme =>
    let w1 := darkTheme.Button.Click w
    let w2 := darkTheme.Checkbox.Check w1
    match createThemeElements .LightThemeFactory with
    | none => w2.panic
    | some lightTheme =>
      let w3 := lightTheme.Button.Click w2
      lightTheme.Checkbox.Check w3

/-- The output that the closing comment of abstract-factory.go documents. -/
def documentedOutput : List String :=
  ["Dark button clicked",
   "Dark checkbox checked",
   "Light button clicked",
   "Light checkbox checked"]

/-! ### Vocabulary of the properties -/

/-- Both elements of the theme are dark, or both are light. -/
def Theme.consistent (t : Theme) : Bool :=
  (t.Button == .DarkButton && t.Checkbox == .DarkCheckbox) ||
  (t.Button == .LightButton && t.Checkbox == .LightCheckbox)

/-- The theme holds a dark element next to a light one. -/
def Theme.mixed (t : Theme) : Bool :=
  (t.Button == .DarkButton && t.Checkbox == .LightCheckbox) ||
  (t.Button == .LightButton && t.Checkbox == .DarkCheckbox)

end AbstractFactory

namespace Factory

/-! ## factory.go -/

/-- The values of interface `Product`: nil, a `*ConcreteProductA`, a
`*ConcreteProductB`. -/
inductive Product where
  | nil
  | ConcreteProductA
  | ConcreteProductB
  deriving DecidableEq, Repr

/-- Method `Use()` called on a `Product`. -/
def Product.Use : Product → World → World
  | .nil, w => w.panic
  | .ConcreteProductA, w => w.println ["Using product A"]
  | .ConcreteProductB, w => w.println ["Using product B"]

/-- The struct `ProductFactory`, which has no fields. -/
structure ProductFactory where
  deriving DecidableEq, Repr

/-- Method `(f *ProductFactory) CreateProduct(productType string) Product`. -/
def ProductFactory.CreateProduct (_f : ProductFactory) (productType : String) : Product :=
  if productType = "A" then
    .ConcreteProductA
  else if productType = "B" then
    .ConcreteProductB
  else
    .nil

/-- Function `useProduct(productType)`. -/
def useProduct (productType : String) (w : World) : World :=
  let product := ({} : ProductFactory).CreateProduct productType
  product.Use w

/-- Function `main` of factory.go. -/
def main (w : World) : World :=
  useProduct "B" (useProduct "A" w)

/-- The output that the closing comment of factory.go documents. -/
def documentedOutput : List String :=
  ["Using product A",
   "Using product B"]

end Factory

namespace Strategy

/-! ## strategy.go -/

/-- The values of interface `PaymentStrategy`: nil, a `*CreditCardStrategy`, a
`*PayPalStrategy`. -/
inductive PaymentStrategy where
  | nil
  | CreditCardStrategy
  | PayPalStrategy
  deriving DecidableEq, Repr

/-- Method `ProcessPayment(amount int64)` called on a `PaymentStrategy`; the
builtin `println` writes an `int64` in decimal. -/
def PaymentStrategy.ProcessPayment : PaymentStrategy → Int → World → World
  | .nil, _, w => w.panic
  | .CreditCardStrategy, amount, w => w.println ["Paying with credit card: ", toString amount]
  | .PayPalStrategy, amount, w => w.println ["Paying with PayPal: ", toString amount]

/-- The struct `Payment`. -/
structure Payment where
  strategy : PaymentStrategy
  deriving DecidableEq, Repr

/-- Function `NewPayment(strategy)`: a pointer to a new `Payment`, given here by
the value it points to. -/
def NewPayment (strategy : PaymentStrategy) : Payment := { strategy := strategy }

/-- Method `(p *Payment) Pay(amount int64)`. -/
def Payment.Pay (p : Payment) (amount : Int) (w : World) : World :=
  p.strategy.ProcessPayment amount w

/-- Function `main` of strategy.go. -/
def main (w : World) : World :=
  let payment := NewPayment .CreditCardStrategy
  let w1 := payment.Pay 1000 w
  let payment := NewPayment .PayPalStrategy
  payment.Pay 10000 w1

end Strategy

/-! ## Properties of Go's `int` -/

theorem wrap_zero (w : Nat) : wrap w 0 = 0 := by
  simp [wrap]

theorem wrap_wrap (w : Nat) (x : Int) : wrap w (wrap w x) = wrap w x := by
  simp [wrap]

theorem wrap_add_wrap_left (w : Nat) (x y : Int) :
    wrap w (wrap w x + y) = wrap w (x + y) := by
  unfold wrap
  exact Int.bmod_add_bmod_congr

theorem wrap_add_wrap_right (w : Nat) (x y : Int) :
    wrap w (x + wrap w y) = wrap w (x + y) := by
  unfold wrap
  exact Int.add_bmod_bmod

theorem half_two_pow (w : Nat) : (2 ^ w + 1) / 2 = 2 ^ (w - 1) := by
  cases w with
  | zero => rfl
  | succ n =>
    have h : 2 ^ (n + 1) = 2 * 2 ^ n := by ring
    simp only [Nat.add_sub_cancel, h]
    omega

/-- A non-negative integer not above `maxInt w` is stored unchanged. -/
theorem wrap_of_nonneg_of_le (w : Nat) (x : Int) (h0 : 0 ≤ x) (h1 : x ≤ maxInt w) :
    wrap w x = x := by
  have hpos : (0 : Int) < ((2 ^ w : Nat) : Int) := by positivity
  have hhalf : (((2 ^ w + 1) / 2 : Nat) : Int) = 2 ^ (w - 1) := by
    rw [half_two_pow]; push_cast; rfl
  have hle : (2 : Int) ^ (w - 1) ≤ ((2 ^ w : Nat) : Int) := by
    push_cast
    exact pow_le_pow_right₀ (by norm_num) (Nat.sub_le w 1)
  have hlt : x < ((2 ^ w : Nat) : Int) := by
    unfold maxInt at h1; omega
  have hmod : x % ((2 ^ w : Nat) : Int) = x := Int.emod_eq_of_lt h0 hlt
  unfold wrap
  rw [Int.bmod_pos]
  · exact hmod
  · rw [hmod]
    have : ((((2 ^ w : Nat) : Int) + 1) / 2) = (((2 ^ w + 1) / 2 : Nat) : Int) := by
      push_cast; rfl
    unfold maxInt at h1
    omega
namespace Composite

/-! ## Properties of composite.go -/

/-- Structural induction on item trees: a property that holds of every leaf, and
of every box whose items all have it, holds of every tree. -/
theorem Item.induct {P : Item → Prop}
    (leaf : ∀ ri, P (.RealItem ri))
    (node : ∀ items, (∀ item ∈ items, P item) → P (.Box items)) :
    ∀ t, P t :=
  @Item.rec P (fun items => ∀ item ∈ items, P item)
    leaf
    (fun items ih => node items ih)
    (fun _ h => absurd h (List.not_mem_nil _))
    (fun head tail hh ht item hmem => by
      rcases List.mem_cons.mp hmem with h | h
      · exact h ▸ hh
      · exact ht item h)

theorem rangeLoop_wrap (w : Nat) (items : List Item) (t : Int) :
    Box.rangeLoop w items (wrap w t) = wrap w (t + (items.map (Item.Cost w)).sum) := by
  induction items generalizing t with
  | nil => simp [Box.rangeLoop]
  | cons item rest ih =>
    simp only [Box.rangeLoop, intAdd, List.map_cons, List.sum_cons]
    rw [ih, add_assoc, wrap_add_wrap_left]

theorem cost_box (w : Nat) (items : List Item) :
    (Item.Box items).Cost w = wrap w ((items.map (Item.Cost w)).sum) := by
  have h := rangeLoop_wrap w items 0
  rw [wrap_zero, zero_add] at h
  simpa [Item.Cost] using h

theorem leavesOfItems_eq (items : List Item) :
    Item.leavesOfItems items = (items.map Item.leaves).flatten := by
  induction items with
  | nil => simp [Item.leavesOfItems]
  | cons item rest ih => simp [Item.leavesOfItems, ih]

theorem leafSum_box (items : List Item) :
    (Item.Box items).leafSum = (items.map Item.leafSum).sum := by
  induction items with
  | nil => simp [Item.leafSum, Item.leaves, Item.leavesOfItems]
  | cons item rest ih =>
    simp only [Item.leafSum, Item.leaves, Item.leavesOfItems, List.map_append, List.sum_append,
      List.map_cons, List.sum_cons] at ih ⊢
    rw [ih]

theorem wrap_sum_congr (w : Nat) (f g : Item → Int) (items : List Item)
    (h : ∀ item ∈ items, wrap w (f item) = wrap w (g item)) :
    wrap w ((items.map f).sum) = wrap w ((items.map g).sum) := by
  induction items with
  | nil => simp
  | cons item rest ih =>
    simp only [List.map_cons, List.sum_cons]
    rw [← wrap_add_wrap_left, ← wrap_add_wrap_right, h item (List.mem_cons_self _ _),
      ih (fun i hi => h i (List.mem_cons_of_mem _ hi)), wrap_add_wrap_left, wrap_add_wrap_right]

theorem wrap_cost (w : Nat) : ∀ t : Item, wrap w (t.Cost w) = wrap w t.leafSum := by
  apply Item.induct
  · intro ri
    simp [Item.Cost, RealItem.Cost, Item.leafSum, Item.leaves]
  · intro items ih
    rw [cost_box, wrap_wrap, leafSum_box]
    exact wrap_sum_congr w _ _ items ih

theorem cost_box_leafSum (w : Nat) (items : List Item) :
    (Item.Box items).Cost w = wrap w (Item.Box items).leafSum := by
  rw [← wrap_cost, cost_box, wrap_wrap]

theorem cost_eq_wrap_leafSum (w : Nat) (t : Item) (h : t.InRange w) :
    t.Cost w = wrap w t.leafSum := by
  cases t with
  | RealItem ri =>
    have := h ri (by simp [Item.leaves])
    simp [Item.Cost, RealItem.Cost, Item.leafSum, Item.leaves, this]
  | Box items => exact cost_box_leafSum w items


theorem cost_flatten (w : Nat) (t : Item) : t.flatten.Cost w = wrap w t.leafSum := by
  unfold Item.flatten
  rw [cost_box, List.map_map]
  rfl

theorem subtreesOfItems_eq (items : List Item) :
    Item.subtreesOfItems items = (items.map Item.subtrees).flatten := by
  induction items with
  | nil => simp [Item.subtreesOfItems]
  | cons item rest ih => simp [Item.subtreesOfItems, ih]

theorem leaves_sublist_of_mem_subtrees :
    ∀ t : Item, ∀ s ∈ t.subtrees, s.leaves.Sublist t.leaves := by
  apply Item.induct
  · intro ri s hs
    simp only [Item.subtrees, List.mem_singleton] at hs
    rw [hs]
  · intro items ih s hs
    simp only [Item.subtrees, List.mem_cons] at hs
    rcases hs with hs | hs
    · rw [hs]
    · rw [subtreesOfItems_eq, List.mem_flatten] at hs
      obtain ⟨l, hl, hsl⟩ := hs
      obtain ⟨item, hitem, rfl⟩ := List.mem_map.mp hl
      have h1 := ih item hitem s hsl
      have h2 : item.leaves.Sublist (Item.Box items).leaves := by
        simp only [Item.leaves]
        rw [leavesOfItems_eq]
        exact List.sublist_flatten_of_mem (List.mem_map_of_mem _ hitem)
      exact h1.trans h2

theorem mem_subtrees_self (t : Item) : t ∈ t.subtrees := by
  cases t <;> simp [Item.subtrees]

/-- Under the hypotheses of the amended C9, a subtree has non-negative leaves
whose sum is bounded by that of the whole tree. -/
theorem leafSum_subtree_bounds (t s : Item) (hs : s ∈ t.subtrees)
    (hnn : ∀ ri ∈ t.leaves, 0 ≤ ri.cost) :
    0 ≤ s.leafSum ∧ s.leafSum ≤ t.leafSum := by
  have hsub := leaves_sublist_of_mem_subtrees t s hs
  constructor
  · apply List.sum_nonneg
    intro x hx
    obtain ⟨ri, hri, rfl⟩ := List.mem_map.mp hx
    exact hnn ri (hsub.subset hri)
  · apply List.Sublist.sum_le_sum (hsub.map _)
    intro x hx
    obtain ⟨ri, hri, rfl⟩ := List.mem_map.mp hx
    exact hnn ri hri

end Composite

namespace Composite

/-! ### The claims about composite.go -/

/-- C7: for every `RealItem`, whatever its name and its integer cost `c` (zero
and negative values included), `Cost()` returns exactly `c`; the name plays no
part. -/
theorem realItem_cost (w : Nat) (name : String) (c : Int) :
    (Item.RealItem { name := name, cost := c }).Cost w = c ∧
    ∀ other : String, (Item.RealItem { name := other, cost := c }).Cost w =
      (Item.RealItem { name := name, cost := c }).Cost w :=
  ⟨rfl, fun _ => rfl⟩

/-- C2: the cost of a `Box` with items `c1..cn` is `Cost(c1) + ... + Cost(cn)`:
the sum as Go's `int` computes it, which is the exact sum of the item costs
reduced to `w` bits, and so the exact sum itself whenever that is an `int`
value.  A `Box` with no items costs 0. -/
theorem box_cost_eq_sum (w : Nat) (items : List Item) :
    Box.Cost w items = wrap w ((items.map (Item.Cost w)).sum) ∧
    (wrap w ((items.map (Item.Cost w)).sum) = (items.map (Item.Cost w)).sum →
      Box.Cost w items = (items.map (Item.Cost w)).sum) ∧
    Box.Cost w [] = 0 ∧
    (Item.Box items).Cost w = Box.Cost w items :=
  ⟨cost_box w items, fun h => (cost_box w items).trans h, rfl, rfl⟩

/-- Witness of C2: the inner box of the tree of `main`. -/
theorem box_cost_eq_sum_witness :
    wrap 64 (([Item.RealItem { name := "Item 3", cost := 30 },
        Item.RealItem { name := "Item 4", cost := 40 }].map (Item.Cost 64)).sum) = 70 ∧
    Box.Cost 64 [Item.RealItem { name := "Item 3", cost := 30 },
        Item.RealItem { name := "Item 4", cost := 40 }] = 70 :=
  ⟨by decide,
    ((box_cost_eq_sum 64 [Item.RealItem { name := "Item 3", cost := 30 },
        Item.RealItem { name := "Item 4", cost := 40 }]).2.1 (by decide)).trans (by decide)⟩

/-- C3: for every tree of `Box` and `RealItem` nodes (cost fields being `int`
values), with boxes nested to any depth, `Cost()` of the root is the sum of the
cost fields of all the `RealItem` leaves reachable from the root: the sum as
Go's `int` computes it, and so the exact sum whenever that is an `int` value. -/
theorem cost_eq_sum_of_leaves (w : Nat) (t : Item) (h : t.InRange w) :
    t.Cost w = wrap w ((t.leaves.map Composite.RealItem.cost).sum) ∧
    (wrap w ((t.leaves.map Composite.RealItem.cost).sum) =
        (t.leaves.map Composite.RealItem.cost).sum →
      t.Cost w = (t.leaves.map Composite.RealItem.cost).sum) :=
  ⟨cost_eq_wrap_leafSum w t h, fun hs => (cost_eq_wrap_leafSum w t h).trans hs⟩

/-- Witness of C3: the tree of `main`,
`Box[RealItem 10, RealItem 20, Box[RealItem 30, RealItem 40]]`, costs 100, and
`main` prints the documented line. -/
theorem cost_eq_sum_of_leaves_witness :
    box.InRange 64 ∧ (box.leaves.map Composite.RealItem.cost).sum = 100 ∧
      box.Cost 64 = 100 ∧ (main 64 World.start).stderr = ["Total cost:  100"] :=
  ⟨by decide, by decide, (cost_eq_sum_of_leaves 64 box (by decide)).2 (by decide), by decide⟩

/-- C6: grouping invariance.  The cost of a tree is the cost of the single flat
`Box` that holds exactly its leaves; hence two trees with the same collection
of leaves (in any order, nested in any shape, empty and single-item boxes
included) have the same cost. -/
theorem cost_grouping_invariant (w : Nat) (t1 t2 : Item)
    (h1 : t1.InRange w) (h2 : t2.InRange w) (hp : t1.leaves.Perm t2.leaves) :
    t1.Cost w = t1.flatten.Cost w ∧ t1.Cost w = t2.Cost w := by
  refine ⟨?_, ?_⟩
  · rw [cost_flatten, cost_eq_wrap_leafSum w t1 h1]
  · rw [cost_eq_wrap_leafSum w t1 h1, cost_eq_wrap_leafSum w t2 h2]
    unfold Item.leafSum
    rw [(hp.map Composite.RealItem.cost).sum_eq]

/-- Witness of C6: the tree of `main` and its regrouping. -/
theorem cost_grouping_invariant_witness :
    box.InRange 64 ∧ regrouped.InRange 64 ∧ box.leaves.Perm regrouped.leaves ∧
      box.Cost 64 = box.flatten.Cost 64 ∧ box.Cost 64 = regrouped.Cost 64 :=
  ⟨by decide, by decide, by decide,
    cost_grouping_invariant 64 box regrouped (by decide) (by decide) (by decide)⟩

/-- C9 fails as stated: both leaves of `overflowBox64` have a non-negative cost
that is an `int`, and `Cost()` of the box is `-9223372036854775808`; likewise
on a 32-bit target. -/
theorem cost_negative_on_overflow :
    (∀ ri ∈ overflowBox64.leaves, 0 ≤ ri.cost) ∧ overflowBox64.InRange 64 ∧
      overflowBox64 ∈ overflowBox64.subtrees ∧
      overflowBox64.Cost 64 = -9223372036854775808 ∧ overflowBox64.Cost 64 < 0 ∧
    (∀ ri ∈ overflowBox32.leaves, 0 ≤ ri.cost) ∧ overflowBox32.InRange 32 ∧
      overflowBox32 ∈ overflowBox32.subtrees ∧
      overflowBox32.Cost 32 = -2147483648 ∧ overflowBox32.Cost 32 < 0 :=
  ⟨by decide, by decide, mem_subtrees_self _, by decide, by decide,
   by decide, by decide, mem_subtrees_self _, by decide, by decide⟩

/-- C9, amended: in a tree in which every `RealItem` has a cost `>= 0` and the
sum of all the leaf costs does not exceed the largest `int`, `Cost()` of every
subtree is `>= 0`. -/
theorem cost_nonneg_of_bounded (w : Nat) (t : Item)
    (hnn : ∀ ri ∈ t.leaves, 0 ≤ ri.cost) (hsum : t.leafSum ≤ maxInt w) :
    ∀ s ∈ t.subtrees, 0 ≤ s.Cost w := by
  intro s hs
  obtain ⟨h0, h1⟩ := leafSum_subtree_bounds t s hs hnn
  cases s with
  | RealItem ri =>
    have hsub := leaves_sublist_of_mem_subtrees t _ hs
    exact hnn ri (hsub.subset (by simp [Item.leaves]))
  | Box items =>
    rw [cost_box_leafSum, wrap_of_nonneg_of_le w _ h0 (h1.trans hsum)]
    exact h0

/-- Witness of the amended C9: the tree of `main` and its inner box. -/
theorem cost_nonneg_of_bounded_witness :
    (∀ ri ∈ box.leaves, 0 ≤ ri.cost) ∧ box.leafSum ≤ maxInt 64 ∧
      Item.Box [.RealItem { name := "Item 3", cost := 30 },
        .RealItem { name := "Item 4", cost := 40 }] ∈ box.subtrees ∧
      0 ≤ (Item.Box [.RealItem { name := "Item 3", cost := 30 },
        .RealItem { name := "Item 4", cost := 40 }]).Cost 64 :=
  ⟨by decide, by decide, by simp [box, Item.subtrees, Item.subtreesOfItems],
    cost_nonneg_of_bounded 64 box (by decide) (by decide) _
      (by simp [box, Item.subtrees, Item.subtreesOfItems])⟩

end Composite

/-! ## Properties of sequencing -/

theorem World.start_andThen (r : World) : World.start.andThen r = r := by
  simp [World.andThen, World.start]

theorem World.andThen_start (w : World) : w.andThen World.start = w := by
  cases w with
  | mk out p => cases p <;> simp [World.andThen, World.start]

theorem World.andThen_assoc (w a b : World) :
    (w.andThen a).andThen b = w.andThen (a.andThen b) := by
  cases w with
  | mk wo wp =>
    cases a with
    | mk ao ap => cases wp <;> cases ap <;> simp [World.andThen]

theorem World.andThen_of_panicked (w r : World) (h : w.panicked = true) :
    w.andThen r = w := by
  simp [World.andThen, h]

theorem World.println_eq_andThen (w : World) (args : List String) :
    w.println args = w.andThen (World.start.println args) := by
  cases w with
  | mk out p => cases p <;> simp [World.println, World.andThen, World.start]

theorem World.panic_eq_andThen (w : World) : w.panic = w.andThen World.start.panic := by
  cases w with
  | mk out p => cases p <;> simp [World.panic, World.andThen, World.start]

namespace Decorator

/-! ## Properties of decorator.go -/

/-- The effect of a call does not depend on what was written before it: it is
the effect of the call run on its own, placed after the earlier output. -/
theorem Notifier.notify_eq_andThen (n : Notifier) (message : String) (w : World) :
    n.Notify message w = w.andThen (n.run message) := by
  induction n generalizing w with
  | nil => exact World.panic_eq_andThen w
  | EmailNotifier => exact World.println_eq_andThen w _
  | SMSNotifier => exact World.println_eq_andThen w _
  | SlackNotifier => exact World.println_eq_andThen w _
  | decorator core notifier ihc ihn =>
    simp only [Notifier.run, Notifier.Notify]
    cases hc : core.isNil with
    | true => simpa using ihn w
    | false =>
      simp only [Bool.false_eq_true, if_false]
      rw [ihc (notifier.Notify message w), ihn w, ihc (notifier.Notify message World.start),
        World.andThen_assoc]
      rfl
  | nilDecorator => exact World.panic_eq_andThen w

/-- Dispatch on a stored `NotificationDecorator` runs its method `Notify`. -/
theorem NotificationDecorator.toNotifier_notify (nd : NotificationDecorator)
    (message : String) (w : World) :
    nd.toNotifier.Notify message w = nd.Notify message w := rfl

theorem NotificationDecorator.method_notify_eq_andThen (nd : NotificationDecorator)
    (message : String) (w : World) :
    nd.Notify message w = w.andThen (nd.run message) :=
  Notifier.notify_eq_andThen nd.toNotifier message w

/-- The lines a notifier writes are fixed labels, each followed by the message
of the call; which labels, and whether the call panics, depends on the
notifier alone. -/
theorem Notifier.run_shape (n : Notifier) :
    ∃ (labels : List String) (p : Bool), ∀ message : String,
      n.run message =
        { stderr := labels.map (fun l => l ++ " " ++ message), panicked := p } := by
  induction n with
  | nil => exact ⟨[], true, fun _ => rfl⟩
  | EmailNotifier => exact ⟨["Sending email notification: "], false, fun _ => rfl⟩
  | SMSNotifier => exact ⟨["Sending SMS notification: "], false, fun _ => rfl⟩
  | SlackNotifier => exact ⟨["Sending Slack notification: "], false, fun _ => rfl⟩
  | decorator core notifier ihc ihn =>
    obtain ⟨lc, pc, hc⟩ := ihc
    obtain ⟨ln, pn, hn⟩ := ihn
    cases hnil : core.isNil with
    | true =>
      refine ⟨ln, pn, fun message => ?_⟩
      have := hn message
      simp only [Notifier.run, Notifier.Notify, hnil, if_true] at this ⊢
      exact this
    | false =>
      cases pn with
      | true =>
        refine ⟨ln, true, fun message => ?_⟩
        have h1 := hn message
        simp only [Notifier.run, Notifier.Notify, hnil, Bool.false_eq_true, if_false] at h1 ⊢
        rw [h1, Notifier.notify_eq_andThen]
        simp [World.andThen]
      | false =>
        refine ⟨ln ++ lc, pc, fun message => ?_⟩
        have h1 := hn message
        have h2 := hc message
        simp only [Notifier.run, Notifier.Notify, hnil, Bool.false_eq_true, if_false] at h1 ⊢
        rw [h1, Notifier.notify_eq_andThen, h2]
        simp [World.andThen]
  | nilDecorator => exact ⟨[], true, fun _ => rfl⟩

end Decorator

namespace Decorator

/-! ### The claims about decorator.go -/

/-- C1, evaluated on the chain of `main` (Email, then SMS, then Slack, message
"Hello, User!"): the run writes the Slack line, then the SMS line, then the
email line, which is the documented output in reverse order and not the
documented output. -/
theorem main_output_order :
    main World.start =
      { stderr := ["Sending Slack notification:  Hello, User!",
                   "Sending SMS notification:  Hello, User!",
                   "Sending email notification:  Hello, User!"],
        panicked := false } ∧
    (main World.start).stderr = documentedOutput.reverse ∧
    (main World.start).stderr ≠ documentedOutput :=
  ⟨by decide, by decide, by decide⟩

/-- C4: `c.Decorate(n)` is the chain whose own notifier is `n` and whose core is
`c`; `Notify(m)` on it first performs `n.Notify(m)` and then exactly what
`c.Notify(m)` performs (a panic of `n.Notify(m)` ends the run, as in any
sequence of Go statements), so that, when `n.Notify(m)` returns, the lines
written are those of `n` followed by those of `c`.  When the core is absent
only the own notifier runs. -/
theorem decorate_notify (c : NotificationDecorator) (n : Notifier) (m : String) (w : World) :
    (c.Decorate n).notifier = n ∧ (c.Decorate n).core = c.toNotifier ∧
    (c.Decorate n).Notify m w = c.Notify m (n.Notify m w) ∧
    (c.Decorate n).run m = (n.run m).andThen (c.run m) ∧
    ((n.run m).panicked = false →
      ((c.Decorate n).run m).stderr = (n.run m).stderr ++ (c.run m).stderr) ∧
    ({ core := .nil, notifier := n } : NotificationDecorator).Notify m w = n.Notify m w := by
  have hseq : (c.Decorate n).run m = (n.run m).andThen (c.run m) :=
    NotificationDecorator.method_notify_eq_andThen c m (n.run m)
  refine ⟨rfl, rfl, rfl, hseq, ?_, rfl⟩
  intro hp
  rw [hseq]
  simp [World.andThen, hp]

/-- Witness of C4: the chain `{notifier: Email}` decorated with SMS. -/
theorem decorate_notify_witness :
    (Notifier.SMSNotifier.run "m").panicked = false ∧
    (((single .EmailNotifier).Decorate .SMSNotifier).run "m").stderr =
      (Notifier.SMSNotifier.run "m").stderr ++ ((single .EmailNotifier).run "m").stderr :=
  ⟨by decide,
    (decorate_notify (single .EmailNotifier) .SMSNotifier "m" World.start).2.2.2.2.1
      (by decide)⟩

/-- C8: a chain of length 1, `NotificationDecorator{notifier: A}` with no core,
performs on `Notify(m)` exactly `A.Notify(m)` and nothing else. -/
theorem single_notify (A : Notifier) (m : String) (w : World) :
    (single A).Notify m w = A.Notify m w ∧ (single A).run m = A.run m :=
  ⟨rfl, rfl⟩

/-- C10: `Notify` keeps no state between calls.  Calling `c.Notify(m1)` and then
`c.Notify(m2)` does what `c.Notify(m1)` does on its own followed by what
`c.Notify(m2)` does on its own (the second call does not take place if the
first one panics); when the first call returns, the lines written are those
of the first call followed by those of the second.  Every line of a call
carries the message of that call: a call writes a fixed list of labels, each
followed by its message. -/
theorem notify_twice (c : NotificationDecorator) (m1 m2 : String) (w : World) :
    c.Notify m2 (c.Notify m1 w) = (w.andThen (c.run m1)).andThen (c.run m2) ∧
    (w.panicked = false → (c.run m1).panicked = false →
      (c.Notify m2 (c.Notify m1 w)).stderr =
        w.stderr ++ (c.run m1).stderr ++ (c.run m2).stderr) ∧
    ∃ (labels : List String) (p : Bool), ∀ m : String,
      c.run m = { stderr := labels.map (fun l => l ++ " " ++ m), panicked := p } := by
  have hseq : c.Notify m2 (c.Notify m1 w) = (w.andThen (c.run m1)).andThen (c.run m2) := by
    rw [NotificationDecorator.method_notify_eq_andThen c m2,
      NotificationDecorator.method_notify_eq_andThen c m1]
  refine ⟨hseq, ?_, Notifier.run_shape c.toNotifier⟩
  intro hw h1
  rw [hseq]
  simp [World.andThen, hw, h1]

/-- Witness of C10: the chain of `main` called with "first" and then with
"second". -/
theorem notify_twice_witness :
    World.start.panicked = false ∧ (decoratedNotifier.run "first").panicked = false ∧
    (decoratedNotifier.Notify "second" (decoratedNotifier.Notify "first" World.start)).stderr =
      World.start.stderr ++ (decoratedNotifier.run "first").stderr ++
        (decoratedNotifier.run "second").stderr :=
  ⟨by decide, by decide,
    (notify_twice decoratedNotifier "first" "second" World.start).2.1 (by decide) (by decide)⟩

end Decorator

namespace Composite

/-! ### Bounded call depth and the order of items -/

theorem depth_le_depthOfItems (items : List Item) :
    ∀ item ∈ items, item.depth ≤ Item.depthOfItems items := by
  induction items with
  | nil => intro item h; exact absurd h (List.not_mem_nil _)
  | cons head tail ih =>
    intro item h
    simp only [Item.depthOfItems]
    rcases List.mem_cons.mp h with h | h
    · rw [h]; exact le_max_left _ _
    · exact (ih item h).trans (le_max_right _ _)

/-- The loop of the bounded evaluation agrees with the range loop as soon as the
bounded evaluation of every item returns its cost. -/
theorem foldl_costFuel_eq (w fuel : Nat) (items : List Item) (t : Int)
    (h : ∀ item ∈ items, Item.costFuel w fuel item = some (item.Cost w)) :
    items.foldl
      (fun totalCost item =>
        match totalCost, Item.costFuel w fuel item with
        | some total, some cost => some (intAdd w total cost)
        | _, _ => none)
      (some t) = some (Box.rangeLoop w items t) := by
  induction items generalizing t with
  | nil => rfl
  | cons head tail ih =>
    simp only [List.foldl_cons, Box.rangeLoop]
    rw [h head (List.mem_cons_self _ _)]
    exact ih _ (fun item hi => h item (List.mem_cons_of_mem _ hi))

theorem costFuel_of_depth_le (w : Nat) :
    ∀ t : Item, ∀ fuel : Nat, t.depth ≤ fuel → Item.costFuel w fuel t = some (t.Cost w) := by
  apply Item.induct
  · intro ri fuel h
    cases fuel with
    | zero => simp [Item.depth] at h
    | succ n => rfl
  · intro items ih fuel h
    cases fuel with
    | zero => simp [Item.depth] at h
    | succ n =>
      have hn : Item.depthOfItems items ≤ n := by
        simp only [Item.depth] at h
        omega
      simp only [Item.costFuel, Item.Cost]
      exact foldl_costFuel_eq w n items 0
        (fun item hi => ih item hi n ((depth_le_depthOfItems items item hi).trans hn))

theorem cost_perm (w : Nat) (xs ys : List Item) (h : xs.Perm ys) :
    (Item.Box ys).Cost w = (Item.Box xs).Cost w := by
  rw [cost_box, cost_box, (h.map (Item.Cost w)).sum_eq]

end Composite

namespace Composite

/-! ### Further claims about composite.go -/

/-- C12: the order of the items of a `Box` does not affect the result: for
every item list `xs` and every permutation `ys` of it, the `Box` with items
`ys` costs what the `Box` with items `xs` costs. -/
theorem box_cost_perm (w : Nat) (xs ys : List Item) (h : xs.Perm ys) :
    (Item.Box ys).Cost w = (Item.Box xs).Cost w ∧ Box.Cost w ys = Box.Cost w xs :=
  ⟨cost_perm w xs ys h, cost_perm w xs ys h⟩

/-- Witness of C12: the items of the tree of `main`, and the same items with
the inner box moved to the front. -/
theorem box_cost_perm_witness :
    [Item.RealItem { name := "Item 1", cost := 10 },
      Item.RealItem { name := "Item 2", cost := 20 },
      Item.Box [.RealItem { name := "Item 3", cost := 30 },
        .RealItem { name := "Item 4", cost := 40 }]].Perm
      [Item.Box [.RealItem { name := "Item 3", cost := 30 },
        .RealItem { name := "Item 4", cost := 40 }],
      Item.RealItem { name := "Item 1", cost := 10 },
      Item.RealItem { name := "Item 2", cost := 20 }] ∧
    Box.Cost 64
      [Item.Box [.RealItem { name := "Item 3", cost := 30 },
        .RealItem { name := "Item 4", cost := 40 }],
      Item.RealItem { name := "Item 1", cost := 10 },
      Item.RealItem { name := "Item 2", cost := 20 }] =
    Box.Cost 64
      [Item.RealItem { name := "Item 1", cost := 10 },
      Item.RealItem { name := "Item 2", cost := 20 },
      Item.Box [.RealItem { name := "Item 3", cost := 30 },
        .RealItem { name := "Item 4", cost := 40 }]] :=
  ⟨(List.perm_append_comm : ([_, _] ++ [_]).Perm ([_] ++ [_, _])),
    (box_cost_perm 64 _ _
      (List.perm_append_comm : ([_, _] ++ [_]).Perm ([_] ++ [_, _]))).2⟩

/-- C17: `Cost` is total and terminates on every tree of `Box` and `RealItem`
nodes.  Run with a bound on the number of nested calls, the evaluation returns
the value of `Cost()` (it never fails) as soon as the bound reaches the
depth of the tree, and every recursive call of `Box.Cost` is on an item that is
a strict subtree, of smaller depth than the box. -/
theorem cost_terminates (w : Nat) (t : Item) (fuel : Nat) (h : t.depth ≤ fuel) :
    Item.costFuel w fuel t = some (t.Cost w) ∧
    (∀ items : List Item, ∀ item ∈ items,
      item ∈ (Item.Box items).subtrees ∧ item.depth < (Item.Box items).depth) := by
  refine ⟨costFuel_of_depth_le w t fuel h, fun items item hi => ⟨?_, ?_⟩⟩
  · simp only [Item.subtrees, List.mem_cons]
    right
    rw [subtreesOfItems_eq, List.mem_flatten]
    exact ⟨item.subtrees, List.mem_map_of_mem _ hi, mem_subtrees_self item⟩
  · have := depth_le_depthOfItems items item hi
    simp only [Item.depth]
    omega

/-- Witness of C17: the tree of `main` has depth 3, and three nested calls are
enough to evaluate it. -/
theorem cost_terminates_witness :
    box.depth ≤ 3 ∧ Item.costFuel 64 3 box = some (box.Cost 64) ∧
      Item.costFuel 64 3 box = some 100 :=
  ⟨by decide, (cost_terminates 64 box 3 (by decide)).1, by decide⟩

end Composite

/-! ## Properties of sequences of steps -/

theorem World.seq_of_no_panic (rs : List World) (h : ∀ r ∈ rs, r.panicked = false) :
    World.seq rs = { stderr := (rs.map World.stderr).flatten, panicked := false } := by
  induction rs with
  | nil => rfl
  | cons r rs ih =>
    have hr := h r (List.mem_cons_self _ _)
    have hrs := ih (fun x hx => h x (List.mem_cons_of_mem _ hx))
    simp [World.seq, World.andThen, hr, hrs]

namespace Decorator

/-! ## Properties of chains -/

theorem chainOf_append (b0 : Notifier) (bs : List Notifier) (b : Notifier) :
    chainOf b0 (bs ++ [b]) = (chainOf b0 bs).Decorate b := by
  simp [chainOf, List.foldl_append]

theorem decorate_run_eq (c : NotificationDecorator) (n : Notifier) (m : String) :
    (c.Decorate n).run m = (n.run m).andThen (c.run m) :=
  NotificationDecorator.method_notify_eq_andThen c m (n.run m)

/-- What a chain does: the calls of the supplied notifiers, the last supplied
first, one after the other. -/
theorem chainOf_run (b0 : Notifier) (bs : List Notifier) (m : String) :
    (chainOf b0 bs).run m = World.seq (((b0 :: bs).reverse).map (fun b => b.run m)) := by
  induction bs using List.reverseRecOn with
  | nil =>
    show (single b0).run m = (b0.run m).andThen World.start
    rw [World.andThen_start]
    rfl
  | append_singleton bs b ih =>
    rw [chainOf_append, decorate_run_eq, ih]
    have : (b0 :: (bs ++ [b])).reverse = b :: (b0 :: bs).reverse := by simp
    rw [this]
    rfl

theorem leaf_run (b : Notifier) (m : String) (h : b.isLeaf = true) :
    ∃ label : String, b.run m = { stderr := [label ++ " " ++ m], panicked := false } := by
  cases b with
  | nil => simp [Notifier.isLeaf] at h
  | EmailNotifier => exact ⟨_, rfl⟩
  | SMSNotifier => exact ⟨_, rfl⟩
  | SlackNotifier => exact ⟨_, rfl⟩
  | decorator core notifier => simp [Notifier.isLeaf] at h
  | nilDecorator => simp [Notifier.isLeaf] at h

theorem seq_of_leaves (l : List Notifier) (m : String) (h : ∀ b ∈ l, b.isLeaf = true) :
    (World.seq (l.map (fun b => b.run m))).panicked = false ∧
    (World.seq (l.map (fun b => b.run m))).stderr.length = l.length ∧
    ∀ line ∈ (World.seq (l.map (fun b => b.run m))).stderr,
      ∃ label : String, line = label ++ " " ++ m := by
  induction l with
  | nil => simp [World.seq, World.start]
  | cons b l ih =>
    obtain ⟨label, hb⟩ := leaf_run b m (h b (List.mem_cons_self _ _))
    obtain ⟨h1, h2, h3⟩ := ih (fun x hx => h x (List.mem_cons_of_mem _ hx))
    simp only [List.map_cons, World.seq, hb, World.andThen]
    refine ⟨by simpa using h1, by simp [h2], ?_⟩
    intro line hline
    simp only [Bool.false_eq_true, if_false, List.singleton_append, List.mem_cons] at hline
    rcases hline with hline | hline
    · exact ⟨label, hline⟩
    · exact h3 line hline

/-- A present notifier returns from `Notify` and writes at least one line. -/
theorem present_run (n : Notifier) (m : String) (h : n.present = true) :
    (n.run m).panicked = false ∧ (n.run m).stderr ≠ [] := by
  induction n with
  | nil => simp [Notifier.present] at h
  | EmailNotifier => exact ⟨rfl, by simp [Notifier.run, Notifier.Notify, World.println, World.start]⟩
  | SMSNotifier => exact ⟨rfl, by simp [Notifier.run, Notifier.Notify, World.println, World.start]⟩
  | SlackNotifier => exact ⟨rfl, by simp [Notifier.run, Notifier.Notify, World.println, World.start]⟩
  | decorator core notifier ihc ihn =>
    simp only [Notifier.present, Bool.and_eq_true, Bool.or_eq_true] at h
    obtain ⟨hn, hc⟩ := h
    obtain ⟨hn1, hn2⟩ := ihn hn
    have hrun : (Notifier.decorator core notifier).run m =
        if core.isNil then notifier.run m else (notifier.run m).andThen (core.run m) := by
      simp only [Notifier.run, Notifier.Notify]
      split
      · rfl
      · exact Notifier.notify_eq_andThen core m _
    rw [hrun]
    rcases hc with hc | hc
    · simp [hc, hn1, hn2]
    · obtain ⟨hc1, _⟩ := ihc hc
      split
      · exact ⟨hn1, hn2⟩
      · simp [World.andThen, hn1, hc1, hn2]
  | nilDecorator => simp [Notifier.present] at h

/-- Decorating a chain whose links are present with present notifiers gives a
chain whose links are present. -/
theorem foldl_decorate_present (nd : NotificationDecorator) (bs : List Notifier)
    (hnd : nd.toNotifier.present = true) (hbs : ∀ b ∈ bs, b.present = true) :
    (bs.foldl NotificationDecorator.Decorate nd).toNotifier.present = true ∧
    (bs.foldl NotificationDecorator.Decorate nd).notifier.present = true := by
  induction bs generalizing nd with
  | nil =>
    refine ⟨hnd, ?_⟩
    simp only [NotificationDecorator.toNotifier, Notifier.present, Bool.and_eq_true] at hnd
    exact hnd.1
  | cons b bs ih =>
    have hb := hbs b (List.mem_cons_self _ _)
    apply ih (nd.Decorate b) _ (fun x hx => hbs x (List.mem_cons_of_mem _ hx))
    simp only [NotificationDecorator.toNotifier, NotificationDecorator.Decorate,
      Notifier.present, Notifier.isNil, Bool.false_or, Bool.and_eq_true] at hnd ⊢
    exact ⟨hb, hnd⟩

theorem isNil_of_present (n : Notifier) (h : n.present = true) : n.isNil = false := by
  cases n <;> simp [Notifier.present, Notifier.isNil] at h ⊢

end Decorator

namespace Decorator

/-! ### Further claims about decorator.go -/

/-- C11 fails as stated: the zero value `NotificationDecorator{}` and the chain
`NotificationDecorator{notifier: &EmailNotifier{}}.Decorate(nil)` can be built,
their own notifier is nil, and `Notify` panics on them before anything is
written. -/
theorem nil_notifier_constructible :
    zeroValue.notifier.isNil = true ∧
    zeroValue.run "Hello, User!" = { stderr := [], panicked := true } ∧
    ((single .EmailNotifier).Decorate .nil).notifier.isNil = true ∧
    ((single .EmailNotifier).Decorate .nil).run "Hello, User!" =
      { stderr := [], panicked := true } :=
  ⟨by decide, by decide, by decide, by decide⟩

/-- C11, amended: a `NotificationDecorator` built by a struct literal whose
`notifier` is present and whose `core` is nil or present, followed by any
number of `Decorate` calls with present notifiers, has a present (non-nil) own
notifier at every link, and `Notify` on it never calls a missing behaviour: it
returns without a panic, having performed at least one action. -/
theorem chain_of_present_total (nd : NotificationDecorator) (bs : List Notifier) (m : String)
    (hnd : nd.toNotifier.present = true) (hbs : ∀ b ∈ bs, b.present = true) :
    (bs.foldl NotificationDecorator.Decorate nd).toNotifier.present = true ∧
    (bs.foldl NotificationDecorator.Decorate nd).notifier.isNil = false ∧
    ((bs.foldl NotificationDecorator.Decorate nd).run m).panicked = false ∧
    ((bs.foldl NotificationDecorator.Decorate nd).run m).stderr ≠ [] := by
  obtain ⟨h1, h2⟩ := foldl_decorate_present nd bs hnd hbs
  exact ⟨h1, isNil_of_present _ h2,
    present_run (bs.foldl NotificationDecorator.Decorate nd).toNotifier m h1⟩

/-- Witness of the amended C11: the chain of `main`, built from the literal
`NotificationDecorator{notifier: &EmailNotifier{}}`. -/
theorem chain_of_present_total_witness :
    (single .EmailNotifier).toNotifier.present = true ∧
    (∀ b ∈ [Notifier.SMSNotifier, Notifier.SlackNotifier], b.present = true) ∧
    [Notifier.SMSNotifier, Notifier.SlackNotifier].foldl NotificationDecorator.Decorate
      (single .EmailNotifier) = decoratedNotifier ∧
    decoratedNotifier.toNotifier.present = true ∧
    decoratedNotifier.notifier.isNil = false ∧
    (decoratedNotifier.run "Hello, User!").panicked = false ∧
    (decoratedNotifier.run "Hello, User!").stderr ≠ [] :=
  ⟨by decide, by decide, by decide,
    chain_of_present_total (single .EmailNotifier) [.SMSNotifier, .SlackNotifier]
      "Hello, User!" (by decide) (by decide)⟩

/-- C16 fails as stated: in
`NotificationDecorator{notifier: &EmailNotifier{}}.Decorate(nil).Decorate(&SlackNotifier{})`
three notifiers are supplied, and `Notify` writes the Slack line, panics on the
nil notifier and never invokes the email notifier; likewise with the zero
value `NotificationDecorator{}` supplied as a notifier, where nothing is
written at all. -/
theorem chain_with_nil_stops_early :
    (chainOf .EmailNotifier [.nil, .SlackNotifier]).run "Hello, User!" =
      { stderr := ["Sending Slack notification:  Hello, User!"], panicked := true } ∧
    "Sending email notification:  Hello, User!" ∉
      ((chainOf .EmailNotifier [.nil, .SlackNotifier]).run "Hello, User!").stderr ∧
    ((chainOf .EmailNotifier [.nil, .SlackNotifier]).run "Hello, User!").stderr.length ≠
      [Notifier.nil, Notifier.SlackNotifier].length + 1 ∧
    (chainOf .EmailNotifier [zeroValue.toNotifier]).run "Hello, User!" =
      { stderr := [], panicked := true } :=
  ⟨by decide, by decide, by decide, by decide⟩

/-- C16, amended: for the chain built from `b0` by `n` calls of `Decorate` with
`b1..bn`, where `Notify(m)` returns without a panic on each `bi`, `Notify(m)`
returns and performs exactly `n + 1` actions: each supplied notifier is invoked
exactly once (the calls are a rearrangement of `b0..bn`), and every invocation
receives the payload `m` given to the head.  When the supplied notifiers are
the printing notifiers of decorator.go, exactly `n + 1` lines are written, each
carrying `m`. -/
theorem chain_invokes_each_once (b0 : Notifier) (bs : List Notifier) (m : String)
    (h : ∀ b ∈ b0 :: bs, (b.run m).panicked = false) :
    ((chainOf b0 bs).run m).panicked = false ∧
    (∃ calls : List Notifier,
      calls.Perm (b0 :: bs) ∧ calls.length = bs.length + 1 ∧
      (chainOf b0 bs).run m = World.seq (calls.map (fun b => b.run m)) ∧
      ((chainOf b0 bs).run m).stderr = (calls.map (fun b => (b.run m).stderr)).flatten) ∧
    ((∀ b ∈ b0 :: bs, b.isLeaf = true) →
      ((chainOf b0 bs).run m).stderr.length = bs.length + 1 ∧
      ∀ line ∈ ((chainOf b0 bs).run m).stderr, ∃ label : String, line = label ++ " " ++ m) := by
  have hrun : (chainOf b0 bs).run m =
      { stderr := (((b0 :: bs).reverse).map (fun b => (b.run m).stderr)).flatten,
        panicked := false } := by
    rw [chainOf_run, World.seq_of_no_panic]
    · simp [List.map_map, Function.comp_def]
    · intro r hr
      obtain ⟨b, hb, rfl⟩ := List.mem_map.mp hr
      exact h b (List.mem_reverse.mp hb)
  refine ⟨by rw [hrun], ⟨(b0 :: bs).reverse, List.reverse_perm _, by simp, chainOf_run b0 bs m,
    by rw [hrun]⟩, ?_⟩
  intro hleaf
  have := seq_of_leaves (b0 :: bs).reverse m (fun b hb => hleaf b (List.mem_reverse.mp hb))
  rw [← chainOf_run] at this
  exact ⟨by simpa using this.2.1, this.2.2⟩

/-- Witness of the amended C16: the chain of `main` writes three lines. -/
theorem chain_invokes_each_once_witness :
    (∀ b ∈ [Notifier.EmailNotifier, .SMSNotifier, .SlackNotifier],
      (b.run "Hello, User!").panicked = false) ∧
    (∀ b ∈ [Notifier.EmailNotifier, .SMSNotifier, .SlackNotifier], b.isLeaf = true) ∧
    ((chainOf .EmailNotifier [.SMSNotifier, .SlackNotifier]).run "Hello, User!").panicked =
      false ∧
    ((chainOf .EmailNotifier [.SMSNotifier, .SlackNotifier]).run "Hello, User!").stderr.length =
      2 + 1 :=
  ⟨by decide, by decide,
    (chain_invokes_each_once .EmailNotifier [.SMSNotifier, .SlackNotifier] "Hello, User!"
      (by decide)).1,
    ((chain_invokes_each_once .EmailNotifier [.SMSNotifier, .SlackNotifier] "Hello, User!"
      (by decide)).2.2 (by decide)).1⟩

/-- C18: as coded, `Notify` runs the own notifier of the outermost link before it
forwards to `core`, and `Decorate` makes the new notifier the outermost link;
so on `NotificationDecorator{notifier: b0}.Decorate(b1)...Decorate(bn)` the call
`Notify(m)` performs `bn.Notify(m)`, ..., `b1.Notify(m)`, `b0.Notify(m)` in
that order (up to the first call that panics): the most recently decorated
notifier first and the initial notifier last. -/
theorem chain_notify_order (b0 : Notifier) (bs : List Notifier) (m : String) (w : World) :
    (∀ (c : NotificationDecorator) (n : Notifier),
      (c.Decorate n).notifier = n ∧ (c.Decorate n).core = c.toNotifier ∧
      (c.Decorate n).Notify m w = c.toNotifier.Notify m (n.Notify m w)) ∧
    (chainOf b0 bs).Notify m w =
      w.andThen (World.seq (((b0 :: bs).reverse).map (fun b => b.run m))) ∧
    ((∀ b ∈ b0 :: bs, (b.run m).panicked = false) →
      (chainOf b0 bs).run m =
        { stderr := (((b0 :: bs).reverse).map (fun b => (b.run m).stderr)).flatten,
          panicked := false }) := by
  refine ⟨fun _ _ => ⟨rfl, rfl, rfl⟩, ?_, ?_⟩
  · rw [NotificationDecorator.method_notify_eq_andThen, chainOf_run]
  · intro h
    rw [chainOf_run, World.seq_of_no_panic]
    · simp [List.map_map, Function.comp_def]
    · intro r hr
      obtain ⟨b, hb, rfl⟩ := List.mem_map.mp hr
      exact h b (List.mem_reverse.mp hb)

/-- Witness of C18: the chain of `main` (Email, then SMS, then Slack) writes
the Slack line, then the SMS line, then the email line. -/
theorem chain_notify_order_witness :
    (∀ b ∈ [Notifier.EmailNotifier, .SMSNotifier, .SlackNotifier],
      (b.run "Hello, User!").panicked = false) ∧
    (chainOf .EmailNotifier [.SMSNotifier, .SlackNotifier]).run "Hello, User!" =
      { stderr := ["Sending Slack notification:  Hello, User!",
                   "Sending SMS notification:  Hello, User!",
                   "Sending email notification:  Hello, User!"],
        panicked := false } :=
  ⟨by decide,
    (chain_notify_order .EmailNotifier [.SMSNotifier, .SlackNotifier] "Hello, User!"
      World.start).2.2 (by decide)⟩

end Decorator

namespace AbstractFactory

/-! ## The claim about abstract-factory.go -/

/-- C13: `createThemeElements` yields a consistent theme for every concrete
factory.  A theme it returns is the dark button with the dark checkbox (from
`DarkThemeFactory`) or the light button with the light checkbox (from
`LightThemeFactory`), never a dark element next to a light one; and `main`
writes the dark button, dark checkbox, light button and light checkbox lines in
that order. -/
theorem theme_consistent (factory : UIElementFactory) (theme : Theme)
    (h : createThemeElements factory = some theme) :
    createThemeElements .DarkThemeFactory =
      some { Button := .DarkButton, Checkbox := .DarkCheckbox } ∧
    createThemeElements .LightThemeFactory =
      some { Button := .LightButton, Checkbox := .LightCheckbox } ∧
    ((factory = .DarkThemeFactory ∧ theme = { Button := .DarkButton, Checkbox := .DarkCheckbox }) ∨
     (factory = .LightThemeFactory ∧
      theme = { Button := .LightButton, Checkbox := .LightCheckbox })) ∧
    theme.consistent = true ∧ theme.mixed = false ∧
    main World.start = { stderr := documentedOutput, panicked := false } := by
  refine ⟨rfl, rfl, ?_, ?_, ?_, by decide⟩ <;>
    cases factory <;> simp [createThemeElements, UIElementFactory.CreateButton,
      UIElementFactory.CreateCheckbox] at h <;> subst h <;> simp [Theme.consistent, Theme.mixed]

/-- Witness of C13: the theme of the light factory. -/
theorem theme_consistent_witness :
    createThemeElements .LightThemeFactory =
      some { Button := .LightButton, Checkbox := .LightCheckbox } ∧
    ({ Button := .LightButton, Checkbox := .LightCheckbox } : Theme).consistent = true ∧
    ({ Button := .LightButton, Checkbox := .LightCheckbox } : Theme).mixed = false :=
  ⟨by decide,
    (theme_consistent .LightThemeFactory { Button := .LightButton, Checkbox := .LightCheckbox }
      (by decide)).2.2.2.1,
    (theme_consistent .LightThemeFactory { Button := .LightButton, Checkbox := .LightCheckbox }
      (by decide)).2.2.2.2.1⟩

end AbstractFactory

namespace Factory

/-! ## The claims about factory.go -/

/-- C14: `CreateProduct` creates the product named by the product type:
`CreateProduct("A")` is a `ConcreteProductA` and `CreateProduct("B")` a
`ConcreteProductB`, so `useProduct("A")` performs exactly the action
"Using product A" and `useProduct("B")` exactly "Using product B". -/
theorem create_product_named (f : ProductFactory) (w : World) :
    f.CreateProduct "A" = .ConcreteProductA ∧
    f.CreateProduct "B" = .ConcreteProductB ∧
    useProduct "A" w = w.println ["Using product A"] ∧
    useProduct "B" w = w.println ["Using product B"] ∧
    useProduct "A" World.start = { stderr := ["Using product A"], panicked := false } ∧
    useProduct "B" World.start = { stderr := ["Using product B"], panicked := false } ∧
    main World.start = { stderr := documentedOutput, panicked := false } :=
  ⟨rfl, rfl, rfl, rfl, by decide, by decide, by decide⟩

/-- C19: `CreateProduct` returns nil if and only if the product type is neither
"A" nor "B" (the comparison is exact and case-sensitive); for every such
product type `useProduct` calls `Use` on the nil `Product` and panics without
performing any product action, and `useProduct` succeeds exactly for "A" and
"B". -/
theorem create_product_nil_iff (f : ProductFactory) (productType : String) :
    (f.CreateProduct productType = .nil ↔ (productType ≠ "A" ∧ productType ≠ "B")) ∧
    useProduct productType World.start =
      (if productType = "A" then { stderr := ["Using product A"], panicked := false }
       else if productType = "B" then { stderr := ["Using product B"], panicked := false }
       else { stderr := [], panicked := true }) ∧
    ((useProduct productType World.start).panicked = false ↔
      (productType = "A" ∨ productType = "B")) ∧
    f.CreateProduct "a" = .nil ∧ f.CreateProduct "b" = .nil ∧ f.CreateProduct "" = .nil ∧
    f.CreateProduct "A " = .nil := by
  refine ⟨?_, ?_, ?_, by cases f; decide, by cases f; decide, by cases f; decide,
    by cases f; decide⟩
  · by_cases hA : productType = "A"
    · simp [ProductFactory.CreateProduct, hA]
    · by_cases hB : productType = "B"
      · simp [ProductFactory.CreateProduct, hB]
      · simp [ProductFactory.CreateProduct, hA, hB]
  · by_cases hA : productType = "A"
    · subst hA; decide
    · by_cases hB : productType = "B"
      · subst hB; decide
      · simp [useProduct, ProductFactory.CreateProduct, hA, hB, Product.Use, World.panic,
          World.start]
  · by_cases hA : productType = "A"
    · subst hA; decide
    · by_cases hB : productType = "B"
      · subst hB; decide
      · simp [useProduct, ProductFactory.CreateProduct, hA, hB, Product.Use, World.panic,
          World.start]

end Factory

namespace Strategy

/-! ## The claim about strategy.go -/

/-- C15: `Pay` makes the payment using the payment strategy: for every strategy
`s` and amount `a`, `NewPayment(s).Pay(a)` does exactly what
`s.ProcessPayment(a)` does, once and with the amount unchanged.  With the
credit card strategy and 1000 it writes the credit card line with 1000, with
the PayPal strategy and 10000 the PayPal line with 10000. -/
theorem pay_uses_strategy (s : PaymentStrategy) (a : Int) (w : World) :
    (NewPayment s).strategy = s ∧
    (NewPayment s).Pay a w = s.ProcessPayment a w ∧
    (NewPayment .CreditCardStrategy).Pay a World.start =
      { stderr := ["Paying with credit card: " ++ " " ++ toString a], panicked := false } ∧
    (NewPayment .PayPalStrategy).Pay a World.start =
      { stderr := ["Paying with PayPal: " ++ " " ++ toString a], panicked := false } ∧
    (NewPayment .CreditCardStrategy).Pay 1000 World.start =
      { stderr := ["Paying with credit card:  1000"], panicked := false } ∧
    (NewPayment .PayPalStrategy).Pay 10000 World.start =
      { stderr := ["Paying with PayPal:  10000"], panicked := false } ∧
    main World.start =
      { stderr := ["Paying with credit card:  1000", "Paying with PayPal:  10000"],
        panicked := false } :=
  ⟨rfl, rfl, rfl, rfl, by decide, by decide, by decide⟩

end Strategy

namespace Decorator

/-! ## Properties of chains held in variables -/

theorem Notifier.toRef_isNil (n : Notifier) : n.toRef.isNil = n.isNil := by
  cases n <;> rfl

/-- On a notifier without pointers the evaluation in a memory agrees with
`Notify`, whatever the memory, as soon as the budget reaches its height. -/
theorem Notifier.notifyFuel_toRef (mem : Memory) (m : String) (n : Notifier) :
    ∀ (fuel : Nat) (w : World), n.height ≤ fuel →
      NotifierRef.notifyFuel mem m fuel n.toRef w = some (n.Notify m w) := by
  induction n with
  | nil => intro fuel w h; cases fuel with
    | zero => simp [Notifier.height] at h
    | succ f => rfl
  | EmailNotifier => intro fuel w h; cases fuel with
    | zero => simp [Notifier.height] at h
    | succ f => rfl
  | SMSNotifier => intro fuel w h; cases fuel with
    | zero => simp [Notifier.height] at h
    | succ f => rfl
  | SlackNotifier => intro fuel w h; cases fuel with
    | zero => simp [Notifier.height] at h
    | succ f => rfl
  | decorator core notifier ihc ihn =>
    intro fuel w h
    cases fuel with
    | zero => simp [Notifier.height] at h
    | succ f =>
      simp only [Notifier.height] at h
      have hc : core.height ≤ f := by omega
      have hn : notifier.height ≤ f := by omega
      simp only [Notifier.toRef, NotifierRef.notifyFuel, ihn f w hn, Notifier.toRef_isNil,
        Notifier.Notify]
      cases hnil : core.isNil with
      | true => simp
      | false => simpa using ihc f _ hc
  | nilDecorator => intro fuel w h; cases fuel with
    | zero => simp [Notifier.height] at h
    | succ f => rfl

theorem twoChains_chain1 (chain1 chain2 : Nat) (A B : NotifierRef) (mem : Memory)
    (h : chain1 ≠ chain2) :
    twoChains chain1 chain2 A B mem chain1 = { core := .nil, notifier := A } := by
  simp [twoChains, callDecorate, DecoratorVar.Decorate, Memory.assign, h]

theorem twoChains_chain2 (chain1 chain2 : Nat) (A B : NotifierRef) (mem : Memory) :
    twoChains chain1 chain2 A B mem chain2 =
      { core := .decorator .nil A, notifier := B } := by
  simp [twoChains, callDecorate, DecoratorVar.Decorate, Memory.assign]

/-! ### The claim about chains held in variables -/

/-- C5: `Decorate` does not mutate the chain it is called on.  For a chain held
in the variable `c`, the call `c.Decorate(n)` leaves the memory as it was (and
so does `Decorate` called on any value): the `core` and `notifier` fields of
`c` are unchanged, and `c.Notify(m)` does after the call what it did before
(for a chain without pointers: what `Notify(m)` does on its value).  The new
chain holds a copy of the fields of `c`, not its address.  In particular,
after `chain1 := NotificationDecorator{notifier: A}` and
`chain2 := chain1.Decorate(B)`, `chain1.Notify(m)` still performs `A.Notify(m)`
alone, while `chain2.Notify(m)` performs `B.Notify(m)` and then `A.Notify(m)`. -/
theorem decorate_keeps_receiver (mem : Memory) (c : Nat) (n : NotifierRef) (m : String)
    (w : World) :
    (callDecorate c n mem).1 = mem ∧
    (∀ nd : DecoratorVar, (DecoratorVar.Decorate nd n mem).1 = mem) ∧
    ((callDecorate c n mem).1 c).core = (mem c).core ∧
    ((callDecorate c n mem).1 c).notifier = (mem c).notifier ∧
    (∀ fuel : Nat,
      NotifierRef.notifyFuel (callDecorate c n mem).1 m fuel (.pointer c) w =
        NotifierRef.notifyFuel mem m fuel (.pointer c) w) ∧
    (∀ (chain : NotificationDecorator) (fuel : Nat),
      mem c = chain.toVar → chain.toNotifier.height ≤ fuel →
      NotifierRef.notifyFuel (callDecorate c n mem).1 m (fuel + 1) (.pointer c) w =
        some (chain.Notify m w)) ∧
    (callDecorate c n mem).2 =
      { core := .decorator (mem c).core (mem c).notifier, notifier := n } ∧
    (∀ (chain : NotificationDecorator) (b : Notifier),
      mem c = chain.toVar → (callDecorate c b.toRef mem).2 = (chain.Decorate b).toVar) ∧
    (∀ (chain1 chain2 : Nat) (A B : NotifierRef) (fuel : Nat), chain1 ≠ chain2 →
      twoChains chain1 chain2 A B mem chain1 = { core := .nil, notifier := A } ∧
      NotifierRef.notifyFuel (twoChains chain1 chain2 A B mem) m (fuel + 2)
          (.pointer chain1) w =
        NotifierRef.notifyFuel (twoChains chain1 chain2 A B mem) m fuel A w) ∧
    (∀ (chain1 chain2 : Nat) (A B : Notifier) (fuel : Nat), chain1 ≠ chain2 →
      A.height ≤ fuel → B.height ≤ fuel →
      NotifierRef.notifyFuel (twoChains chain1 chain2 A.toRef B.toRef mem) m (fuel + 2)
          (.pointer chain1) w = some (A.Notify m w) ∧
      NotifierRef.notifyFuel (twoChains chain1 chain2 A.toRef B.toRef mem) m (fuel + 3)
          (.pointer chain2) w = some (A.Notify m (B.Notify m w))) := by
  have hone : ∀ (mem2 : Memory) (A : NotifierRef) (fuel : Nat) (w2 : World),
      NotifierRef.notifyFuel mem2 m (fuel + 1) (.decorator .nil A) w2 =
        NotifierRef.notifyFuel mem2 m fuel A w2 := by
    intro mem2 A fuel w2
    simp only [NotifierRef.notifyFuel, NotifierRef.isNil, if_true]
    cases NotifierRef.notifyFuel mem2 m fuel A w2 <;> rfl
  refine ⟨rfl, fun _ => rfl, rfl, rfl, fun _ => rfl, ?_, rfl, ?_, ?_, ?_⟩
  · intro chain fuel hc hf
    have h := Notifier.notifyFuel_toRef mem m chain.toNotifier fuel w hf
    show NotifierRef.notifyFuel mem m fuel (.decorator (mem c).core (mem c).notifier) w = _
    rw [hc]
    exact h
  · intro chain b hc
    show DecoratorVar.mk _ _ = _
    rw [hc]
    rfl
  · intro chain1 chain2 A B fuel hne
    refine ⟨twoChains_chain1 chain1 chain2 A B mem hne, ?_⟩
    show NotifierRef.notifyFuel _ m (fuel + 1) (.decorator _ _) w = _
    rw [twoChains_chain1 chain1 chain2 A B mem hne]
    exact hone _ A fuel w
  · intro chain1 chain2 A B fuel hne hA hB
    constructor
    · show NotifierRef.notifyFuel _ m (fuel + 1) (.decorator _ _) w = _
      rw [twoChains_chain1 chain1 chain2 _ _ mem hne, hone]
      exact Notifier.notifyFuel_toRef _ m A fuel w hA
    · show NotifierRef.notifyFuel _ m (fuel + 2) (.decorator _ _) w = _
      rw [twoChains_chain2]
      simp only [NotifierRef.notifyFuel, NotifierRef.isNil,
        Notifier.notifyFuel_toRef _ m B (fuel + 1) w (by omega), Bool.false_eq_true, if_false,
        if_true, Notifier.notifyFuel_toRef _ m A fuel _ hA]

/-- Witness of C5: `chain1` at address 0 holds the email notifier, `chain2` at
address 1 is `chain1.Decorate(&SMSNotifier{})`; `chain1` still writes the email
line alone, `chain2` writes the SMS line and then the email line. -/
theorem decorate_keeps_receiver_witness :
    (0 : Nat) ≠ 1 ∧ Notifier.EmailNotifier.height ≤ 1 ∧ Notifier.SMSNotifier.height ≤ 1 ∧
    NotifierRef.notifyFuel (twoChains 0 1 .EmailNotifier .SMSNotifier Memory.zero)
        "Hello, User!" 3 (.pointer 0) World.start =
      some { stderr := ["Sending email notification:  Hello, User!"], panicked := false } ∧
    NotifierRef.notifyFuel (twoChains 0 1 .EmailNotifier .SMSNotifier Memory.zero)
        "Hello, User!" 4 (.pointer 1) World.start =
      some { stderr := ["Sending SMS notification:  Hello, User!",
                        "Sending email notification:  Hello, User!"], panicked := false } :=
  ⟨by decide, by decide, by decide,
    ((decorate_keeps_receiver Memory.zero 0 .SMSNotifier "Hello, User!"
      World.start).2.2.2.2.2.2.2.2.2
      0 1 .EmailNotifier .SMSNotifier 1 (by decide) (by decide) (by decide)).1,
    ((decorate_keeps_receiver Memory.zero 0 .SMSNotifier "Hello, User!"
      World.start).2.2.2.2.2.2.2.2.2
      0 1 .EmailNotifier .SMSNotifier 1 (by decide) (by decide) (by decide)).2⟩

end Decorator
